import Mathlib

/-!
Verification of the secure cache-key and CDN-source sanitizer core of
`@nextnode/functions-client`.

The definitions below are a shallow embedding of the TypeScript source:

* `src/lib/image/cache.ts` : `validateCacheHash`, `sanitizeFilename`,
  `generateSecureCacheKey` (and the `ImageConfigError` payloads they throw);
* the CDN adapter's private `sanitizeSource` together with the JavaScript
  `encodeURIComponent` it calls;
* `src/lib/image/adapters/base-adapter.ts` : `validateDimensions` (and the
  `ImageValidationError` payloads), over the `SECURITY_LIMITS` constants.

JavaScript strings are modelled as Lean `String` / `List Char` (sequences of
Unicode scalar values); all inputs exercised by the statements below are
ASCII, where this model agrees with JavaScript's UTF-16 code units exactly.
Fallible functions (`throw` in the source) are modelled with `Except`, the
thrown error object being embedded as a structure recording its class name,
message and structured context.
-/

namespace FunctionsClient

/-! ### cache.ts : validateCacheHash -/

/-- One character of the character class `[a-f0-9]` used (with the `i` flag)
by `validateCacheHash`'s regular expression `/^[a-f0-9]{64}$/i`. -/
def isLowerHexChar (c : Char) : Bool :=
  ('a' ≤ c && c ≤ 'f') || ('0' ≤ c && c ≤ '9')

/-- ASCII lower-casing, as performed by a case-insensitive (`i` flag) match of
an ASCII character class. -/
def toLowerChar (c : Char) : Char :=
  if 'A' ≤ c && c ≤ 'Z' then Char.ofNat (c.toNat + 32) else c

/-- Embedding of `validateCacheHash` (cache.ts):
`return /^[a-f0-9]{64}$/i.test(hash)` — the whole string is exactly 64
characters, each matching `[a-f0-9]` case-insensitively. -/
def validateCacheHash (hash : String) : Bool :=
  hash.data.length == 64 && hash.data.all (fun c => isLowerHexChar (toLowerChar c))

/-! ### cache.ts : sanitizeFilename -/

/-- The character class `[a-zA-Z0-9.-]` of `sanitizeFilename`'s first
replacement regex (the characters it keeps). -/
def isSafeChar (c : Char) : Bool :=
  ('a' ≤ c && c ≤ 'z') || ('A' ≤ c && c ≤ 'Z') || ('0' ≤ c && c ≤ '9') ||
    c = '.' || c = '-'

/-- Step 1 of `sanitizeFilename`: `.replace(/[^a-zA-Z0-9.-]/g, '_')`.
The regex has no quantifier, so each character outside the class is replaced
by its own underscore. -/
def replaceInvalid (l : List Char) : List Char :=
  l.map fun c => if isSafeChar c then c else '_'

/-- Step 2 of `sanitizeFilename`: `.replace(/\.\.+/g, '.')` — every maximal
run of two or more dots collapses to a single dot. -/
def collapseDots : List Char → List Char
  | [] => []
  | c :: rest =>
    if c = '.' then
      match collapseDots rest with
      | [] => ['.']
      | d :: t2 => if d = '.' then d :: t2 else '.' :: d :: t2
    else c :: collapseDots rest

/-- The character class `[.-]` of `sanitizeFilename`'s final trimming regex. -/
def isEdgeChar (c : Char) : Bool := c = '.' || c = '-'

/-- The trailing half of step 4: remove the maximal trailing run of `.`/`-`. -/
def dropTrailingEdges (l : List Char) : List Char :=
  (l.reverse.dropWhile isEdgeChar).reverse

/-- Step 4 of `sanitizeFilename`: `.replace(/^[.-]+|[.-]+$/g, '')` — remove
the leading and the trailing run of dots and dashes. -/
def stripEdges (l : List Char) : List Char :=
  dropTrailingEdges (l.dropWhile isEdgeChar)

/-- Embedding of `sanitizeFilename` (cache.ts): replace invalid characters,
collapse dot runs, truncate with `.substring(0, 255)`, then trim leading and
trailing dots/dashes — in exactly that order. -/
def sanitizeFilename (filename : String) : String :=
  ⟨stripEdges ((collapseDots (replaceInvalid filename.data)).take 255)⟩

/-! ### cache.ts : generateSecureCacheKey -/

/-- The `context` record carried by the `ImageConfigError`s thrown by
`generateSecureCacheKey`: either `{hash, hashLength, expectedLength}` or
`{originalFilename}`. -/
inductive ConfigContext where
  | invalidHash (hash : String) (hashLength : Nat) (expectedLength : Nat)
  | invalidFilename (originalFilename : String)
deriving DecidableEq

/-- An `ImageConfigError` object as thrown by cache.ts: a message plus a
structured context. -/
structure ConfigError where
  message : String
  context : ConfigContext
deriving DecidableEq

/-- Embedding of `generateSecureCacheKey` (cache.ts). -/
def generateSecureCacheKey (filename hash : String) :
    Except ConfigError String :=
  if validateCacheHash hash = false then
    .error ⟨"Invalid cache hash: must be 64-character SHA-256 hex string",
      .invalidHash hash hash.data.length 64⟩
  else
    let safeFilename := sanitizeFilename filename
    if safeFilename = "" then
      .error ⟨"Invalid filename: sanitization resulted in empty string",
        .invalidFilename filename⟩
    else
      .ok (safeFilename ++ "-" ++ hash)

/-! ### CDN adapter : sanitizeSource and encodeURIComponent -/

/-- `l` begins with the pattern `pat` (JavaScript `String.prototype.startsWith`
restricted to the characters of the receiver). -/
def startsWithL : List Char → List Char → Bool
  | _, [] => true
  | [], _ :: _ => false
  | c :: cs, p :: ps => c = p && startsWithL cs ps

/-- `l` contains `pat` as a contiguous substring (JavaScript
`String.prototype.includes`). -/
def hasSub : List Char → List Char → Bool
  | [], pat => pat.isEmpty
  | c :: cs, pat => startsWithL (c :: cs) pat || hasSub cs pat

/-- `l` ends with the pattern `suf`. -/
def endsWithL (l suf : List Char) : Bool :=
  startsWithL l.reverse suf.reverse

/-- The extension test of `sanitizeSource`:
`/\.(jpg|jpeg|png|webp|avif|gif|svg)$/i.test(source)`. -/
def hasValidImageExtension (source : String) : Bool :=
  [".jpg", ".jpeg", ".png", ".webp", ".avif", ".gif", ".svg"].any
    fun ext => endsWithL (source.data.map toLowerChar) ext.data

/-- The unreserved characters of JavaScript `encodeURIComponent`
(`A–Z a–z 0–9 - _ . ! ~ * ' ( )`); every other character is percent-encoded. -/
def isUnreservedURIChar (c : Char) : Bool :=
  ('a' ≤ c && c ≤ 'z') || ('A' ≤ c && c ≤ 'Z') || ('0' ≤ c && c ≤ '9') ||
    c = '-' || c = '_' || c = '.' || c = '!' || c = '~' || c = '*' ||
    c = '\'' || c = '(' || c = ')'

/-- Upper-case hexadecimal digit of a value below 16, as used by the `%XY`
escapes of `encodeURIComponent`. -/
def hexDigitChar (n : Nat) : Char :=
  if n < 10 then Char.ofNat (48 + n) else Char.ofNat (55 + n)

/-- UTF-8 bytes of one Unicode scalar value. -/
def utf8Bytes (c : Char) : List Nat :=
  let n := c.toNat
  if n < 128 then [n]
  else if n < 2048 then [192 + n / 64, 128 + n % 64]
  else if n < 65536 then [224 + n / 4096, 128 + (n / 64) % 64, 128 + n % 64]
  else [240 + n / 262144, 128 + (n / 4096) % 64, 128 + (n / 64) % 64, 128 + n % 64]

/-- Percent-escape of one byte: `%XY` with upper-case hexadecimal digits. -/
def percentByte (b : Nat) : List Char :=
  ['%', hexDigitChar (b / 16), hexDigitChar (b % 16)]

/-- Embedding of JavaScript `encodeURIComponent`: unreserved characters are
kept, every other character is replaced by the percent-escapes of its UTF-8
bytes. -/
def encodeURIComponent (s : String) : String :=
  ⟨s.data.flatMap fun c =>
    if isUnreservedURIChar c then [c] else (utf8Bytes c).flatMap percentByte⟩

/-- A thrown JavaScript error object: its class name (`name`), its message,
and — when the class is one of the library's structured errors — the
`{reason, source}` context it carries. The plain `Error` constructor used by
the CDN adapter's `sanitizeSource` carries no context. -/
structure JsError where
  name : String
  message : String
  securityContext : Option (String × String)
deriving DecidableEq

/-- Embedding of the CDN adapter's private `sanitizeSource`: reject `../` and
`..\` substrings, then leading `/`, then a missing image extension — each
with `throw new Error(message)` — and otherwise return
`encodeURIComponent(source)`. -/
def sanitizeSource (source : String) : Except JsError String :=
  if hasSub source.data ['.', '.', '/'] || hasSub source.data ['.', '.', '\\'] then
    .error ⟨"Error", "Path traversal detected in image source", none⟩
  else if startsWithL source.data ['/'] then
    .error ⟨"Error", "Absolute paths not allowed, use relative paths", none⟩
  else if hasValidImageExtension source = false then
    .error ⟨"Error", "Invalid image source: must have valid image extension", none⟩
  else
    .ok (encodeURIComponent source)

/-! ### base-adapter.ts : validateDimensions -/

/-- The limits record imported by `base-adapter.ts`.

Modelled from the spec: `SECURITY_LIMITS` is declared in
`src/lib/image/types.ts`, which is not among the provided sources (only its
importers and tests are). The spec's dimension-guard scenario fixes the
per-axis maxima at 10000 and requires `10000 × 10000` to exceed the pixel
budget; the repository changelog records the pixel budget as 50 mebipixels
(52,428,800) for exactly that reason. -/
structure SecurityLimits where
  MAX_WIDTH : Int
  MAX_HEIGHT : Int
  MAX_PIXELS : Int

/-- Modelled from the spec: the concrete `SECURITY_LIMITS` values (see
`SecurityLimits`). -/
def SECURITY_LIMITS : SecurityLimits :=
  { MAX_WIDTH := 10000, MAX_HEIGHT := 10000, MAX_PIXELS := 52428800 }

/-- The `context` record carried by the `ImageValidationError`s thrown by
`validateDimensions`, one variant per throw site. -/
inductive ValidationContext where
  | widthExceeded (width maxWidth : Int)
  | heightExceeded (height maxHeight : Int)
  | pixelsExceeded (width height pixels maxPixels : Int)
deriving DecidableEq

/-- The `reason` tag of a `ValidationContext`. -/
def ValidationContext.reason : ValidationContext → String
  | .widthExceeded _ _ => "width_exceeded"
  | .heightExceeded _ _ => "height_exceeded"
  | .pixelsExceeded _ _ _ _ => "pixels_exceeded"

/-- Embedding of `validateDimensions` (base-adapter.ts): three sequential
checks, each skipped when the corresponding argument is `undefined` —
`width > MAX_WIDTH`, then `height > MAX_HEIGHT`, then (both defined)
`width * height > MAX_PIXELS`. -/
def validateDimensions : Option Int → Option Int → Except ValidationContext Unit
  | some w, height =>
    if w > SECURITY_LIMITS.MAX_WIDTH then
      .error (.widthExceeded w SECURITY_LIMITS.MAX_WIDTH)
    else
      match height with
      | some h =>
        if h > SECURITY_LIMITS.MAX_HEIGHT then
          .error (.heightExceeded h SECURITY_LIMITS.MAX_HEIGHT)
        else if w * h > SECURITY_LIMITS.MAX_PIXELS then
          .error (.pixelsExceeded w h (w * h) SECURITY_LIMITS.MAX_PIXELS)
        else .ok ()
      | none => .ok ()
  | none, some h =>
    if h > SECURITY_LIMITS.MAX_HEIGHT then
      .error (.heightExceeded h SECURITY_LIMITS.MAX_HEIGHT)
    else .ok ()
  | none, none => .ok ()

/-- The property "matches the regular expression `^[0-9a-fA-F]{64}$`": exactly
64 characters, each a hexadecimal digit in either case. -/
def matchesHex64 (h : String) : Prop :=
  h.data.length = 64 ∧ ∀ c ∈ h.data,
    ('0' ≤ c ∧ c ≤ '9') ∨ ('a' ≤ c ∧ c ≤ 'f') ∨ ('A' ≤ c ∧ c ≤ 'F')

instance (h : String) : Decidable (matchesHex64 h) := by
  unfold matchesHex64; infer_instance

/-- The string (as a character list) contains two adjacent dots — the
substring `..`. -/
def containsDD (l : List Char) : Prop :=
  ∃ l1 l2, l = l1 ++ '.' :: '.' :: l2

/-! ### Character-level bridging lemmas -/

/-- Order on `Char` is the order of the underlying scalar values. -/
theorem char_le_iff (a b : Char) : a ≤ b ↔ a.toNat ≤ b.toNat := Iff.rfl

/-- Equality of `Char` is equality of the underlying scalar values. -/
theorem char_eq_iff (a b : Char) : a = b ↔ a.toNat = b.toNat := by
  constructor
  · rintro rfl; rfl
  · intro h
    exact Char.eq_of_val_eq (UInt32.ext h)

/-- `Char.ofNat` of a value below the surrogate range keeps its value. -/
theorem charOfNat_toNat (n : Nat) (h : n < 55296) : (Char.ofNat n).toNat = n := by
  have hv : n.isValidChar := Or.inl h
  rw [Char.ofNat, dif_pos hv]
  simp [Char.ofNatAux, Char.toNat, UInt32.toNat, UInt32.ofNatCore]

theorem toLowerChar_toNat (c : Char) :
    (toLowerChar c).toNat =
      if 65 ≤ c.toNat ∧ c.toNat ≤ 90 then c.toNat + 32 else c.toNat := by
  unfold toLowerChar
  by_cases h : ('A' ≤ c && c ≤ 'Z') = true
  · have h' : 65 ≤ c.toNat ∧ c.toNat ≤ 90 := by
      simpa [Bool.and_eq_true, char_le_iff] using h
    rw [if_pos h, if_pos h', charOfNat_toNat _ (by omega)]
  · have h' : ¬(65 ≤ c.toNat ∧ c.toNat ≤ 90) := by
      intro hc
      exact h (by simpa [Bool.and_eq_true, char_le_iff] using hc)
    rw [if_neg h, if_neg h']

theorem isLowerHexChar_iff (c : Char) :
    isLowerHexChar c = true ↔
      (97 ≤ c.toNat ∧ c.toNat ≤ 102) ∨ (48 ≤ c.toNat ∧ c.toNat ≤ 57) := by
  unfold isLowerHexChar
  simp only [Bool.or_eq_true, Bool.and_eq_true, decide_eq_true_eq]
  exact Iff.rfl

/-- The case-insensitive hex test of the code agrees character by character
with the character class `[0-9a-fA-F]`. -/
theorem hexClass_iff (c : Char) :
    isLowerHexChar (toLowerChar c) = true ↔
      (48 ≤ c.toNat ∧ c.toNat ≤ 57) ∨ (97 ≤ c.toNat ∧ c.toNat ≤ 102) ∨
        (65 ≤ c.toNat ∧ c.toNat ≤ 70) := by
  rw [isLowerHexChar_iff, toLowerChar_toNat]
  split <;> omega

theorem validateCacheHash_iff_matchesHex64 (h : String) :
    validateCacheHash h = true ↔ matchesHex64 h := by
  unfold validateCacheHash matchesHex64
  simp only [Bool.and_eq_true, beq_iff_eq, List.all_eq_true]
  refine and_congr Iff.rfl ?_
  refine ⟨fun H c hc => ?_, fun H c hc => ?_⟩
  · exact (hexClass_iff c).mp (H c hc)
  · exact (hexClass_iff c).mpr (H c hc)

end FunctionsClient

namespace FunctionsClient

example : sanitizeFilename "" = "" := by decide
example : sanitizeFilename "..." = "" := by decide
example : sanitizeFilename "///" = "___" := by decide
example : sanitizeFilename "path/to/image.jpg" = "path_to_image.jpg" := by decide
example : sanitizeFilename "../../../etc/passwd" = "_._._etc_passwd" := by decide
example : sanitizeFilename "my/file.jpg" = "my_file.jpg" := by decide
example : sanitizeFilename "my_file.jpg" = "my_file.jpg" := by decide
example : validateCacheHash "a1b2c3d4e5f6a1b2c3d4e5f6a1b2c3d4e5f6a1b2c3d4e5f6a1b2c3d4e5f6a1b2" = true := by decide
example : validateCacheHash "invalid" = false := by decide
example : encodeURIComponent "my image.jpg" = "my%20image.jpg" := by decide
example : sanitizeSource "my image.jpg" = .ok "my%20image.jpg" := rfl
example : sanitizeSource "../../../etc/passwd" =
    .error ⟨"Error", "Path traversal detected in image source", none⟩ := rfl
example : sanitizeSource "/etc/passwd" =
    .error ⟨"Error", "Absolute paths not allowed, use relative paths", none⟩ := rfl
example : sanitizeSource "malicious.exe" =
    .error ⟨"Error", "Invalid image source: must have valid image extension", none⟩ := rfl
example : validateDimensions (some 10000) (some 10000) =
    .error (.pixelsExceeded 10000 10000 100000000 52428800) := rfl

end FunctionsClient

namespace FunctionsClient

/-! ### Claim C7 : the hash gate -/

/-- **C7**: `validateCacheHash h` returns `true` exactly when `h` consists of
64 characters drawn from `0-9`, `a-f`, `A-F` (the regular expression
`^[0-9a-fA-F]{64}$`), and `false` for every other string (being a total
function, it never throws). -/
theorem validateCacheHash_spec (h : String) :
    validateCacheHash h = true ↔ matchesHex64 h :=
  validateCacheHash_iff_matchesHex64 h

/-- Witness for C7 at concrete inputs. -/
theorem validateCacheHash_spec_witness :
    validateCacheHash
      "a1b2c3d4e5f6a1b2c3d4e5f6a1b2c3d4e5f6a1b2c3d4e5f6a1b2c3d4e5f6a1b2" = true :=
  (validateCacheHash_spec
    "a1b2c3d4e5f6a1b2c3d4e5f6a1b2c3d4e5f6a1b2c3d4e5f6a1b2c3d4e5f6a1b2").mpr
    (by decide)

/-! ### Claim C1 : generateSecureCacheKey failure and success cases -/

/-- **C1**: `generateSecureCacheKey filename hash` fails with the
`ImageConfigError` context `{hash, hashLength, expectedLength: 64}` whenever
the hash is not a 64-character hex string — this check runs first, whatever
the filename — and otherwise fails with context `{originalFilename}` exactly
when the filename sanitizes to the empty string; in the remaining case it
returns `` `${safeFilename}-${hash}` `` built from the original hash. These
are the only failure cases. -/
theorem generateSecureCacheKey_cases (filename hash : String) :
    (¬ matchesHex64 hash →
      generateSecureCacheKey filename hash =
        .error ⟨"Invalid cache hash: must be 64-character SHA-256 hex string",
          .invalidHash hash hash.data.length 64⟩) ∧
    (matchesHex64 hash → sanitizeFilename filename = "" →
      generateSecureCacheKey filename hash =
        .error ⟨"Invalid filename: sanitization resulted in empty string",
          .invalidFilename filename⟩) ∧
    (matchesHex64 hash → sanitizeFilename filename ≠ "" →
      generateSecureCacheKey filename hash =
        .ok (sanitizeFilename filename ++ "-" ++ hash)) := by
  refine ⟨?_, ?_, ?_⟩
  · intro hno
    have hb : validateCacheHash hash = false := by
      cases hv : validateCacheHash hash
      · rfl
      · exact absurd ((validateCacheHash_iff_matchesHex64 hash).mp hv) hno
    simp [generateSecureCacheKey, hb]
  · intro hyes hempty
    have hb : validateCacheHash hash = true :=
      (validateCacheHash_iff_matchesHex64 hash).mpr hyes
    simp [generateSecureCacheKey, hb, hempty]
  · intro hyes hne
    have hb : validateCacheHash hash = true :=
      (validateCacheHash_iff_matchesHex64 hash).mpr hyes
    simp [generateSecureCacheKey, hb, hne]

/-- Witness for C1: the two rejection scenarios and the acceptance scenario
of the spec, at concrete inputs. -/
theorem generateSecureCacheKey_cases_witness :
    generateSecureCacheKey "image.jpg" "invalid" =
      .error ⟨"Invalid cache hash: must be 64-character SHA-256 hex string",
        .invalidHash "invalid" 7 64⟩ ∧
    generateSecureCacheKey "..."
        "a1b2c3d4e5f6a1b2c3d4e5f6a1b2c3d4e5f6a1b2c3d4e5f6a1b2c3d4e5f6a1b2" =
      .error ⟨"Invalid filename: sanitization resulted in empty string",
        .invalidFilename "..."⟩ ∧
    generateSecureCacheKey "image.jpg"
        "a1b2c3d4e5f6a1b2c3d4e5f6a1b2c3d4e5f6a1b2c3d4e5f6a1b2c3d4e5f6a1b2" =
      .ok "image.jpg-a1b2c3d4e5f6a1b2c3d4e5f6a1b2c3d4e5f6a1b2c3d4e5f6a1b2c3d4e5f6a1b2" :=
  ⟨(generateSecureCacheKey_cases "image.jpg" "invalid").1 (by decide),
   (generateSecureCacheKey_cases "..." _).2.1 (by decide) (by decide),
   (generateSecureCacheKey_cases "image.jpg" _).2.2 (by decide) (by decide)⟩

/-! ### Claim C9 : the intentional collision -/

/-- **C9**: `sanitizeFilename` maps both `my/file.jpg` and `my_file.jpg` to
`my_file.jpg`, and consequently `generateSecureCacheKey` yields identical
keys for the two filenames whatever valid hash is supplied — an intentional,
by-design collision. -/
theorem sanitizeFilename_collision :
    sanitizeFilename "my/file.jpg" = "my_file.jpg" ∧
    sanitizeFilename "my_file.jpg" = "my_file.jpg" ∧
    ∀ H : String, matchesHex64 H →
      generateSecureCacheKey "my/file.jpg" H =
        generateSecureCacheKey "my_file.jpg" H := by
  refine ⟨by decide, by decide, fun H hH => ?_⟩
  have hb : validateCacheHash H = true :=
    (validateCacheHash_iff_matchesHex64 H).mpr hH
  have e1 : generateSecureCacheKey "my/file.jpg" H =
      .ok ("my_file.jpg" ++ "-" ++ H) := by
    simp [generateSecureCacheKey, hb,
      show sanitizeFilename "my/file.jpg" = "my_file.jpg" from by decide]
  have e2 : generateSecureCacheKey "my_file.jpg" H =
      .ok ("my_file.jpg" ++ "-" ++ H) := by
    simp [generateSecureCacheKey, hb,
      show sanitizeFilename "my_file.jpg" = "my_file.jpg" from by decide]
  rw [e1, e2]

/-- Witness for C9 at a concrete valid hash. -/
theorem sanitizeFilename_collision_witness :
    generateSecureCacheKey "my/file.jpg"
        "a1b2c3d4e5f6a1b2c3d4e5f6a1b2c3d4e5f6a1b2c3d4e5f6a1b2c3d4e5f6a1b2" =
      generateSecureCacheKey "my_file.jpg"
        "a1b2c3d4e5f6a1b2c3d4e5f6a1b2c3d4e5f6a1b2c3d4e5f6a1b2c3d4e5f6a1b2" :=
  sanitizeFilename_collision.2.2 _ (by decide)

end FunctionsClient

namespace FunctionsClient

/-! ### Claim C3 : run collapsing (code bug: the code replaces per character) -/

/-- **C3** (divergence evaluation): the claim — with the repository's own test
suite and changelog — says consecutive invalid characters collapse to a single
underscore, so that `sanitizeFilename('///') === '_'`; but the replacement
regex of the code has no `+` quantifier, and the code yields one underscore
per invalid character: `'___'`. -/
theorem sanitizeFilename_underscore_per_char :
    sanitizeFilename "///" = "___" ∧ sanitizeFilename "///" ≠ "_" :=
  ⟨by decide, by decide⟩

/-! ### Claim C4 : truncation (code bug: the extension is not preserved) -/

set_option maxRecDepth 4096 in
/-- **C4** (divergence evaluation): the claim — with the repository's own test
suite and changelog — says truncation to 255 characters preserves the final
`.ext` suffix; but the code truncates with a plain `substring(0, 255)`: on
300 `a`s followed by `.jpg` it returns 255 `a`s and the extension is lost. -/
theorem sanitizeFilename_truncation_drops_extension :
    sanitizeFilename ⟨List.replicate 300 'a' ++ ['.', 'j', 'p', 'g']⟩ =
      ⟨List.replicate 255 'a'⟩ ∧
    endsWithL
      (sanitizeFilename ⟨List.replicate 300 'a' ++ ['.', 'j', 'p', 'g']⟩).data
      ['.', 'j', 'p', 'g'] = false := by
  constructor
  · decide
  · decide

/-! ### Claim C5 : sanitizeSource failures (code bug: plain `Error` objects) -/

/-- **C5** (divergence evaluation): the claim — with the repository's own CDN
adapter security tests — says each rejection throws an `ImageSecurityError`
carrying context `{reason, source}`; but the code throws plain `Error`
objects (class name `Error`) carrying a message only and no context. -/
theorem sanitizeSource_plain_errors :
    sanitizeSource "../../../etc/passwd" =
      .error ⟨"Error", "Path traversal detected in image source", none⟩ ∧
    sanitizeSource "/etc/passwd" =
      .error ⟨"Error", "Absolute paths not allowed, use relative paths", none⟩ ∧
    sanitizeSource "malicious.exe" =
      .error ⟨"Error", "Invalid image source: must have valid image extension",
        none⟩ :=
  ⟨rfl, rfl, rfl⟩

/-! ### Claim C6 : sanitizeSource success path -/

/-- **C6**: every source free of `../` and `..\`, not starting with `/` and
carrying a valid image extension is returned percent-encoded as a single URI
component; the reserved characters `:`, `"`, `<`, `>`, `&`, space and NUL are
escaped, and in particular `my image.jpg` encodes to a string containing
`%20` and no literal space. -/
theorem sanitizeSource_encodes (s : String)
    (h1 : hasSub s.data ['.', '.', '/'] = false)
    (h2 : hasSub s.data ['.', '.', '\\'] = false)
    (h3 : startsWithL s.data ['/'] = false)
    (h4 : hasValidImageExtension s = true) :
    sanitizeSource s = .ok (encodeURIComponent s) ∧
    encodeURIComponent "my image.jpg" = "my%20image.jpg" ∧
    hasSub (encodeURIComponent "my image.jpg").data ['%', '2', '0'] = true ∧
    ' ' ∉ (encodeURIComponent "my image.jpg").data ∧
    encodeURIComponent ":" = "%3A" ∧
    encodeURIComponent "\"" = "%22" ∧
    encodeURIComponent "<" = "%3C" ∧
    encodeURIComponent ">" = "%3E" ∧
    encodeURIComponent "&" = "%26" ∧
    encodeURIComponent " " = "%20" ∧
    encodeURIComponent "\x00" = "%00" := by
  refine ⟨?_, by decide, by decide, by decide, by decide, by decide, by decide,
    by decide, by decide, by decide, by decide⟩
  simp [sanitizeSource, h1, h2, h3, h4]

/-- Witness for C6 at the spec's concrete source. -/
theorem sanitizeSource_encodes_witness :
    sanitizeSource "my image.jpg" = .ok (encodeURIComponent "my image.jpg") :=
  (sanitizeSource_encodes "my image.jpg" (by decide) (by decide) (by decide)
    (by decide)).1

/-! ### Claim C8 : the dimension guard limits -/

/-- **C8**: `validateDimensions` enforces `width ≤ MAX_WIDTH`,
`height ≤ MAX_HEIGHT` and `width*height ≤ MAX_PIXELS`, each violation raising
a `ValidationError` with its own reason tag; `(10000, 10000)` is rejected by
the pixel ceiling even though each dimension is at its per-axis maximum. -/
theorem validateDimensions_limits :
    (∀ (w : Int) (h : Option Int), w > SECURITY_LIMITS.MAX_WIDTH →
      validateDimensions (some w) h =
        .error (.widthExceeded w SECURITY_LIMITS.MAX_WIDTH)) ∧
    (∀ (w h : Int), w ≤ SECURITY_LIMITS.MAX_WIDTH →
      h > SECURITY_LIMITS.MAX_HEIGHT →
      validateDimensions (some w) (some h) =
        .error (.heightExceeded h SECURITY_LIMITS.MAX_HEIGHT)) ∧
    (∀ h : Int, h > SECURITY_LIMITS.MAX_HEIGHT →
      validateDimensions none (some h) =
        .error (.heightExceeded h SECURITY_LIMITS.MAX_HEIGHT)) ∧
    (∀ (w h : Int), w ≤ SECURITY_LIMITS.MAX_WIDTH →
      h ≤ SECURITY_LIMITS.MAX_HEIGHT → w * h > SECURITY_LIMITS.MAX_PIXELS →
      validateDimensions (some w) (some h) =
        .error (.pixelsExceeded w h (w * h) SECURITY_LIMITS.MAX_PIXELS)) ∧
    (∀ a b, (ValidationContext.widthExceeded a b).reason = "width_exceeded") ∧
    (∀ a b, (ValidationContext.heightExceeded a b).reason = "height_exceeded") ∧
    (∀ a b p m,
      (ValidationContext.pixelsExceeded a b p m).reason = "pixels_exceeded") ∧
    (("width_exceeded" : String) ≠ "height_exceeded" ∧
      ("width_exceeded" : String) ≠ "pixels_exceeded" ∧
      ("height_exceeded" : String) ≠ "pixels_exceeded") ∧
    (validateDimensions (some 10000) (some 10000) =
      .error (.pixelsExceeded 10000 10000 100000000 52428800) ∧
     ¬ ((10000 : Int) > SECURITY_LIMITS.MAX_WIDTH) ∧
     ¬ ((10000 : Int) > SECURITY_LIMITS.MAX_HEIGHT)) := by
  refine ⟨?_, ?_, ?_, ?_, fun a b => rfl, fun a b => rfl, fun a b p m => rfl,
    ⟨by decide, by decide, by decide⟩, rfl, by decide, by decide⟩
  · intro w h hw
    cases h <;> (simp only [validateDimensions]; rw [if_pos hw])
  · intro w h hw hh
    simp only [validateDimensions]
    rw [if_neg (by omega), if_pos hh]
  · intro h hh
    simp only [validateDimensions]
    rw [if_pos hh]
  · intro w h hw hh hp
    simp only [validateDimensions]
    rw [if_neg (by omega), if_neg (by omega), if_pos hp]

/-- Witness for C8 at concrete dimensions. -/
theorem validateDimensions_limits_witness :
    validateDimensions (some 10001) none = .error (.widthExceeded 10001 10000) ∧
    validateDimensions (some 5000) (some 10001) =
      .error (.heightExceeded 10001 10000) ∧
    validateDimensions (some 10000) (some 10000) =
      .error (.pixelsExceeded 10000 10000 100000000 52428800) :=
  ⟨validateDimensions_limits.1 10001 none (by decide),
   validateDimensions_limits.2.1 5000 10001 (by decide) (by decide),
   validateDimensions_limits.2.2.2.1 10000 10000 (by decide) (by decide)
     (by decide)⟩

/-! ### Claim C10 : no lower bound, undefined skips the checks -/

/-- **C10** (counterexample): the claim's "every call with zero or negative
width or height, or with width or height left undefined, returns without
error" is false of the code: two negative dimensions have a positive product,
so `(-100000, -100000)` trips the pixel ceiling (`10^10 > MAX_PIXELS`) and
errors with `pixels_exceeded`; and a zero width does not shield an oversized
height — `(0, 20000)` errors with `height_exceeded`. -/
theorem validateDimensions_negative_counterexample :
    validateDimensions (some (-100000)) (some (-100000)) =
      .error (.pixelsExceeded (-100000) (-100000) 10000000000 52428800) ∧
    validateDimensions (some 0) (some 20000) =
      .error (.heightExceeded 20000 10000) :=
  ⟨rfl, rfl⟩

/-- **C10** (amended): `validateDimensions` errors exactly when a defined
width exceeds `MAX_WIDTH`, a defined height exceeds `MAX_HEIGHT`, or both are
defined and their product exceeds `MAX_PIXELS`; there is no lower-bound
check, so zero, negative or undefined dimensions are never rejected for being
nonpositive — whenever no upper-bound check fires they pass (in particular
`(0, 0)`, `(-100, -100)` and undefined dimensions, for which the
corresponding checks are skipped, all return without error). -/
theorem validateDimensions_no_lower_bound :
    (∀ (w h : Option Int),
      validateDimensions w h = .ok () ↔
        ((∀ x : Int, w = some x → x ≤ SECURITY_LIMITS.MAX_WIDTH) ∧
         (∀ y : Int, h = some y → y ≤ SECURITY_LIMITS.MAX_HEIGHT) ∧
         (∀ x y : Int, w = some x → h = some y →
            x * y ≤ SECURITY_LIMITS.MAX_PIXELS))) ∧
    validateDimensions (some 0) (some 0) = .ok () ∧
    validateDimensions (some (-100)) (some (-100)) = .ok () ∧
    validateDimensions (some 0) none = .ok () ∧
    validateDimensions none (some 0) = .ok () ∧
    validateDimensions none none = .ok () := by
  refine ⟨?_, rfl, rfl, rfl, rfl, rfl⟩
  intro w h
  cases w <;> cases h <;> simp [validateDimensions] <;>
    (try split_ifs) <;> simp_all <;> omega

/-- Witness for C10 at concrete dimensions within all upper bounds. -/
theorem validateDimensions_no_lower_bound_witness :
    validateDimensions (some 9999) (some 4000) = .ok () :=
  (validateDimensions_no_lower_bound.1 (some 9999) (some 4000)).mpr
    ⟨fun x hx => by cases hx; decide,
     fun y hy => by cases hy; decide,
     fun x y hx hy => by cases hx; cases hy; decide⟩

end FunctionsClient

namespace FunctionsClient

/-! ### Helper lemmas for the sanitizeFilename invariants -/

theorem collapseDots_cons_of_ne {c : Char} (hc : ¬ c = '.') (rest : List Char) :
    collapseDots (c :: rest) = c :: collapseDots rest := by
  simp [collapseDots, hc]

theorem collapseDots_cons_dot (rest : List Char) :
    collapseDots ('.' :: rest) =
      match collapseDots rest with
      | [] => ['.']
      | d :: t2 => if d = '.' then d :: t2 else '.' :: d :: t2 := by
  simp [collapseDots]

theorem collapseDots_cons_dot_nil {rest : List Char}
    (ht : collapseDots rest = []) : collapseDots ('.' :: rest) = ['.'] := by
  rw [collapseDots_cons_dot, ht]

theorem collapseDots_cons_dot_dot {rest t2 : List Char}
    (ht : collapseDots rest = '.' :: t2) :
    collapseDots ('.' :: rest) = collapseDots rest := by
  rw [collapseDots_cons_dot, ht]
  simp

theorem collapseDots_cons_dot_ne {rest t2 : List Char} {d : Char}
    (ht : collapseDots rest = d :: t2) (hd : ¬ d = '.') :
    collapseDots ('.' :: rest) = '.' :: d :: t2 := by
  rw [collapseDots_cons_dot, ht]
  simp [hd]

theorem mem_collapseDots : ∀ {l : List Char} {a : Char},
    a ∈ collapseDots l → a ∈ l := by
  intro l
  induction l with
  | nil => intro a h; simp [collapseDots] at h
  | cons c rest ih =>
    intro a h
    by_cases hc : c = '.'
    · subst hc
      cases ht : collapseDots rest with
      | nil =>
        rw [collapseDots_cons_dot_nil ht] at h
        simp at h
        subst h
        exact List.mem_cons_self ..
      | cons d t2 =>
        by_cases hd : d = '.'
        · subst hd
          rw [collapseDots_cons_dot_dot ht] at h
          exact List.mem_cons_of_mem _ (ih h)
        · rw [collapseDots_cons_dot_ne ht hd] at h
          rcases List.mem_cons.mp h with h1 | h2
          · subst h1; exact List.mem_cons_self ..
          · have : a ∈ collapseDots rest := by rw [ht]; exact h2
            exact List.mem_cons_of_mem _ (ih this)
    · rw [collapseDots_cons_of_ne hc] at h
      rcases List.mem_cons.mp h with h1 | h2
      · subst h1; exact List.mem_cons_self ..
      · exact List.mem_cons_of_mem _ (ih h2)

theorem not_containsDD_collapseDots : ∀ l : List Char,
    ¬ containsDD (collapseDots l) := by
  intro l
  induction l with
  | nil => rintro ⟨l1, l2, h⟩; rw [collapseDots] at h; cases l1 <;> simp_all
  | cons c rest ih =>
    by_cases hc : c = '.'
    · subst hc
      cases ht : collapseDots rest with
      | nil =>
        rintro ⟨l1, l2, h⟩
        rw [collapseDots_cons_dot_nil ht] at h
        cases l1 <;> simp_all
      | cons d t2 =>
        by_cases hd : d = '.'
        · subst hd
          rw [← collapseDots_cons_dot_dot ht] at ih
          exact ih
        · rintro ⟨l1, l2, h⟩
          rw [collapseDots_cons_dot_ne ht hd] at h
          cases l1 with
          | nil => simp at h; exact hd h.1
          | cons a l1' =>
            simp only [List.cons_append, List.cons.injEq] at h
            exact ih ⟨l1', l2, by rw [ht]; exact h.2⟩
    · rintro ⟨l1, l2, h⟩
      rw [collapseDots_cons_of_ne hc] at h
      cases l1 with
      | nil => simp at h; exact hc h.1
      | cons a l1' =>
        simp only [List.cons_append, List.cons.injEq] at h
        exact ih ⟨l1', l2, h.2⟩

theorem exists_dropWhile_eq_drop (p : Char → Bool) (l : List Char) :
    ∃ n, l.dropWhile p = l.drop n := by
  induction l with
  | nil => exact ⟨0, rfl⟩
  | cons a l ih =>
    by_cases ha : p a = true
    · obtain ⟨n, hn⟩ := ih
      exact ⟨n + 1, by simp [List.dropWhile_cons, ha, hn]⟩
    · exact ⟨0, by simp [List.dropWhile_cons, ha]⟩

theorem head?_dropWhile_false {p : Char → Bool} : ∀ {l : List Char} {c : Char},
    (l.dropWhile p).head? = some c → p c = false := by
  intro l
  induction l with
  | nil => intro c h; simp [List.dropWhile] at h
  | cons a l ih =>
    intro c h
    rw [List.dropWhile_cons] at h
    split at h
    · exact ih h
    · next ha =>
      simp at h
      subst h
      cases hb : p a
      · rfl
      · exact absurd hb ha

theorem containsDD_of_take {l : List Char} {n : Nat}
    (h : containsDD (l.take n)) : containsDD l := by
  obtain ⟨l1, l2, h⟩ := h
  refine ⟨l1, l2 ++ l.drop n, ?_⟩
  conv_lhs => rw [← List.take_append_drop n l]
  rw [h]
  simp

theorem containsDD_of_drop {l : List Char} {n : Nat}
    (h : containsDD (l.drop n)) : containsDD l := by
  obtain ⟨l1, l2, h⟩ := h
  refine ⟨l.take n ++ l1, l2, ?_⟩
  conv_lhs => rw [← List.take_append_drop n l]
  rw [h, List.append_assoc]

theorem containsDD_of_reverse {l : List Char} (h : containsDD l.reverse) :
    containsDD l := by
  obtain ⟨l1, l2, h⟩ := h
  refine ⟨l2.reverse, l1.reverse, ?_⟩
  have h2 := congrArg List.reverse h
  rw [List.reverse_reverse] at h2
  rw [h2]
  simp

theorem containsDD_of_dropWhile {p : Char → Bool} {l : List Char}
    (h : containsDD (l.dropWhile p)) : containsDD l := by
  obtain ⟨n, hn⟩ := exists_dropWhile_eq_drop p l
  rw [hn] at h
  exact containsDD_of_drop h

theorem containsDD_of_dropTrailingEdges {l : List Char}
    (h : containsDD (dropTrailingEdges l)) : containsDD l := by
  unfold dropTrailingEdges at h
  exact containsDD_of_reverse (containsDD_of_dropWhile (containsDD_of_reverse h))

theorem head?_dropTrailingEdges {l : List Char} {c : Char}
    (h : (dropTrailingEdges l).head? = some c) : l.head? = some c := by
  unfold dropTrailingEdges at h
  rw [List.head?_reverse] at h
  obtain ⟨n, hn⟩ := exists_dropWhile_eq_drop isEdgeChar l.reverse
  rw [hn, List.getLast?_drop] at h
  split at h
  · exact absurd h (by simp)
  · rw [List.getLast?_reverse] at h; exact h

theorem getLast?_dropTrailingEdges_false {l : List Char} {c : Char}
    (h : (dropTrailingEdges l).getLast? = some c) : isEdgeChar c = false := by
  unfold dropTrailingEdges at h
  rw [List.getLast?_reverse] at h
  exact head?_dropWhile_false h

theorem mem_dropTrailingEdges {l : List Char} {a : Char}
    (h : a ∈ dropTrailingEdges l) : a ∈ l := by
  unfold dropTrailingEdges at h
  rw [List.mem_reverse] at h
  obtain ⟨n, hn⟩ := exists_dropWhile_eq_drop isEdgeChar l.reverse
  rw [hn] at h
  exact List.mem_reverse.mp (List.drop_subset _ _ h)

theorem mem_stripEdges {l : List Char} {a : Char} (h : a ∈ stripEdges l) :
    a ∈ l := by
  unfold stripEdges at h
  have h1 := mem_dropTrailingEdges h
  obtain ⟨n, hn⟩ := exists_dropWhile_eq_drop isEdgeChar l
  rw [hn] at h1
  exact List.drop_subset _ _ h1

theorem length_dropTrailingEdges_le (l : List Char) :
    (dropTrailingEdges l).length ≤ l.length := by
  unfold dropTrailingEdges
  rw [List.length_reverse]
  obtain ⟨n, hn⟩ := exists_dropWhile_eq_drop isEdgeChar l.reverse
  rw [hn, List.length_drop, List.length_reverse]
  omega

theorem length_stripEdges_le (l : List Char) :
    (stripEdges l).length ≤ l.length := by
  unfold stripEdges
  refine le_trans (length_dropTrailingEdges_le _) ?_
  obtain ⟨n, hn⟩ := exists_dropWhile_eq_drop isEdgeChar l
  rw [hn, List.length_drop]
  omega

theorem mem_sanitizeFilename_class {f : String} {c : Char}
    (hc : c ∈ (sanitizeFilename f).data) : isSafeChar c = true ∨ c = '_' := by
  have h1 : c ∈ (collapseDots (replaceInvalid f.data)).take 255 :=
    mem_stripEdges hc
  have h2 := List.take_subset _ _ h1
  have h3 := mem_collapseDots h2
  unfold replaceInvalid at h3
  rw [List.mem_map] at h3
  obtain ⟨b, _, hbe⟩ := h3
  by_cases hs : isSafeChar b = true
  · rw [if_pos hs] at hbe
    subst hbe
    exact Or.inl hs
  · rw [if_neg hs] at hbe
    subst hbe
    exact Or.inr rfl

end FunctionsClient

namespace FunctionsClient

/-! ### Claim C2 : the SafeFilename invariants -/

/-- **C2**: for every string `f`, `sanitizeFilename f` is at most 255
characters long, contains only ASCII letters, digits, `.`, `-` and `_`, does
not start or end with `.` or `-`, contains no substring `..`, and contains no
`/` or `\` character. -/
theorem sanitizeFilename_invariants (f : String) :
    (sanitizeFilename f).data.length ≤ 255 ∧
    (∀ c ∈ (sanitizeFilename f).data, isSafeChar c = true ∨ c = '_') ∧
    (∀ c, (sanitizeFilename f).data.head? = some c → c ≠ '.' ∧ c ≠ '-') ∧
    (∀ c, (sanitizeFilename f).data.getLast? = some c → c ≠ '.' ∧ c ≠ '-') ∧
    ¬ containsDD (sanitizeFilename f).data ∧
    '/' ∉ (sanitizeFilename f).data ∧ '\\' ∉ (sanitizeFilename f).data := by
  have hdata : (sanitizeFilename f).data =
      stripEdges ((collapseDots (replaceInvalid f.data)).take 255) := rfl
  refine ⟨?_, fun c hc => mem_sanitizeFilename_class hc, ?_, ?_, ?_, ?_, ?_⟩
  · rw [hdata]
    refine le_trans (length_stripEdges_le _) ?_
    rw [List.length_take]
    exact min_le_left _ _
  · intro c hc
    rw [hdata] at hc
    unfold stripEdges at hc
    have h1 := head?_dropTrailingEdges hc
    have h2 := head?_dropWhile_false h1
    simpa [isEdgeChar] using h2
  · intro c hc
    rw [hdata] at hc
    unfold stripEdges at hc
    have h2 := getLast?_dropTrailingEdges_false hc
    simpa [isEdgeChar] using h2
  · intro hdd
    rw [hdata] at hdd
    unfold stripEdges at hdd
    exact not_containsDD_collapseDots _
      (containsDD_of_take
        (containsDD_of_dropWhile (containsDD_of_dropTrailingEdges hdd)))
  · intro hmem
    rcases mem_sanitizeFilename_class hmem with h | h
    · exact absurd h (by decide)
    · exact absurd h (by decide)
  · intro hmem
    rcases mem_sanitizeFilename_class hmem with h | h
    · exact absurd h (by decide)
    · exact absurd h (by decide)

/-- Witness for C2 at a concrete adversarial filename. -/
theorem sanitizeFilename_invariants_witness :
    (sanitizeFilename "../../my image\\v2..jpg").data.length ≤ 255 :=
  (sanitizeFilename_invariants "../../my image\\v2..jpg").1

end FunctionsClient
